import Mathlib

/-!
Verification of the LeaderForge leaderboard backend.

This file gives a shallow embedding of the core of
`backend/app/api/leaderboard.py`, `backend/app/cache.py`,
`backend/app/middleware.py` and `backend/app/schemas.py`, and proves the
specification claims about it.

Modelling conventions:
* The relational store is a `Db` record; the `leaderboard` table is a list of
  rows kept in creation (insertion) order.  The query
  `ORDER BY total_score DESC` has no secondary sort key, so its contract is
  only `IsOrderByDesc`: the output is a permutation of the table sorted by
  total score descending, with the relative order of tied rows unspecified.
  The executable embedding realizes one admissible execution of that contract
  (`sortByScoreDesc`); properties meant to hold of the program are quantified
  over every admissible execution.
* The SQL window function `RANK() OVER (ORDER BY total_score DESC)` is
  `sqlRank`: one plus the number of rows with strictly greater score.
* Machine integers are `Int`/`Nat`; SQL / Python real arithmetic for the
  percentile is `ℚ`, with Python `round(x, 2)` modelled as round-half-to-even
  at two decimals (`pyRound2`).
* The Redis backend is a `RedisBackend` whose operations return
  `Except RedisErr`; an unreachable backend errors on every call.  The
  `CacheManager` wraps it and catches every error, exactly like the
  `try/except` blocks of `cache.py`.  TTLs and wall-clock fields
  (`last_updated`, response timestamps) are not modelled, since no claim
  mentions them.  Serialized JSON payloads are modelled by `CacheVal`, and the
  namespaced string keys `leaderboard:rank:<uid>`, `leaderboard:score:<uid>`,
  `leaderboard:top:<limit>` by the inductive `CacheKey`; the glob pattern
  `leaderboard:top:*` matches exactly the `CacheKey.top` keys.
* A possible database failure of the post-commit rank query inside
  `submit_score` is injected through the boolean `rankQueryFails`; the
  `db.rollback()` executed in the handler's `except` branch is a no-op on the
  already committed transaction, so the committed state is kept.
-/

namespace LeaderForge

/-- A row of the `users` table (`models.py`, class `User`). -/
structure UserRow where
  id : Int
  username : String
deriving DecidableEq, Repr

/-- A row of the `game_sessions` table (`models.py`, class `GameSession`). -/
structure GameSessionRow where
  user_id : Int
  score : Int
  game_mode : String
deriving DecidableEq, Repr

/-- A row of the `leaderboard` table (`models.py`, class `Leaderboard`).
The wall-clock column `last_updated` is not modelled. -/
structure LeaderboardRow where
  user_id : Int
  username : String
  total_score : Int
  session_count : Nat
deriving DecidableEq, Repr

/-- Database state: the three tables, each as a list of rows in creation
order. -/
structure Db where
  users : List UserRow
  sessions : List GameSessionRow
  leaderboard : List LeaderboardRow
deriving DecidableEq, Repr

/-- The `ScoreSubmission` request body (`schemas.py`). -/
structure ScoreSubmission where
  user_id : Int
  score : Int
  game_mode : Option String
deriving DecidableEq, Repr

/-- Pydantic validation of `ScoreSubmission` (`schemas.py` lines 19-50):
`user_id` is a positive integer, `score` lies in `[0, 1000000]`, and
`game_mode`, when given, is `solo` or `team`. -/
def validateSubmission (uid : Int) (score : Int) (mode : Option String) : Bool :=
  decide (0 < uid) && decide (0 ≤ score) && decide (score ≤ 1000000) &&
    (match mode with
     | none => true
     | some m => m == "solo" || m == "team")

/-- A `LeaderboardEntry` of the top-players response (`schemas.py`). -/
structure LeaderboardEntry where
  rank : Nat
  user_id : Int
  username : String
  total_score : Int
  session_count : Nat
deriving DecidableEq, Repr

/-- The `TopPlayersResponse` (`schemas.py`); the `timestamp` field is not
modelled. -/
structure TopPlayersResponse where
  top_players : List LeaderboardEntry
  total_players : Nat
deriving DecidableEq, Repr

/-- The `PlayerRankResponse` (`schemas.py`). -/
structure PlayerRankResponse where
  user_id : Int
  username : String
  rank : Nat
  total_score : Int
  session_count : Nat
  percentile : ℚ
deriving DecidableEq, Repr

/-- The `ScoreResponse` (`schemas.py`); the human-readable `message` field is
not modelled. -/
structure ScoreResponse where
  success : Bool
  user_id : Int
  new_total_score : Int
  current_rank : Option Nat
deriving DecidableEq, Repr

/-- The `HTTPException`s raised by the endpoints, by status code. -/
inductive HttpErr where
  | notFound      : HttpErr
  | validationErr : HttpErr
  | internalErr   : HttpErr
deriving DecidableEq, Repr

/-- HTTP status code of each error. -/
def HttpErr.status : HttpErr → Nat
  | .notFound => 404
  | .validationErr => 422
  | .internalErr => 500

deriving instance DecidableEq for Except

/-- The namespaced cache keys used by the code: `leaderboard:rank:<uid>`,
`leaderboard:score:<uid>` and `leaderboard:top:<limit>`. -/
inductive CacheKey where
  | rank (uid : Int) : CacheKey
  | score (uid : Int) : CacheKey
  | top (limit : Int) : CacheKey
deriving DecidableEq, Repr

/-- A serialized cache payload (the JSON value stored by `cache.set`). -/
inductive CacheVal where
  | topV (resp : TopPlayersResponse) : CacheVal
  | rankV (resp : PlayerRankResponse) : CacheVal
deriving DecidableEq, Repr

/-- Redis-side failures (`redis.RedisError`). -/
inductive RedisErr where
  | connectionErr : RedisErr
deriving DecidableEq, Repr

/-- The Redis backend: a key-value store that errors on every operation when
unreachable. -/
structure RedisBackend where
  reachable : Bool
  store : List (CacheKey × CacheVal)
deriving DecidableEq, Repr

/-- Raw `GET`. -/
def RedisBackend.rawGet (b : RedisBackend) (k : CacheKey) :
    Except RedisErr (Option CacheVal) :=
  if b.reachable then
    .ok ((b.store.find? (fun kv => kv.1 == k)).map (fun kv => kv.2))
  else .error .connectionErr

/-- Raw `SETEX` (the TTL argument is not modelled). -/
def RedisBackend.rawSetex (b : RedisBackend) (k : CacheKey) (v : CacheVal) :
    Except RedisErr (Bool × RedisBackend) :=
  if b.reachable then
    .ok (true, ⟨b.reachable, (k, v) :: b.store.filter (fun kv => !(kv.1 == k))⟩)
  else .error .connectionErr

/-- Raw `DEL` of a list of keys; returns the number of keys removed. -/
def RedisBackend.rawDelete (b : RedisBackend) (ks : List CacheKey) :
    Except RedisErr (Nat × RedisBackend) :=
  if b.reachable then
    .ok ((b.store.filter (fun kv => ks.contains kv.1)).length,
         ⟨b.reachable, b.store.filter (fun kv => !(ks.contains kv.1))⟩)
  else .error .connectionErr

/-- Raw `KEYS pattern` + `DEL`, for pattern-based bulk deletion; the glob
pattern is modelled as a boolean predicate on keys. -/
def RedisBackend.rawDeleteMatching (b : RedisBackend) (p : CacheKey → Bool) :
    Except RedisErr (Nat × RedisBackend) :=
  if b.reachable then
    .ok ((b.store.filter (fun kv => p kv.1)).length,
         ⟨b.reachable, b.store.filter (fun kv => !(p kv.1))⟩)
  else .error .connectionErr

/-- `CacheManager` (`cache.py`): `client = none` models a failed
initialization (`self.redis_client = None`). -/
structure CacheManager where
  client : Option RedisBackend
deriving DecidableEq, Repr

/-- `CacheManager.get` (`cache.py` lines 46-72): returns `none` when the
client is missing, and catches every backend error, returning `none`. -/
def CacheManager.get (cm : CacheManager) (k : CacheKey) : Option CacheVal :=
  match cm.client with
  | none => none
  | some b =>
    match b.rawGet k with
    | .ok v => v
    | .error _ => none

/-- `CacheManager.set` (`cache.py` lines 74-100): returns `false` when the
client is missing, and catches every backend error, returning `false` and
leaving the state unchanged. -/
def CacheManager.set (cm : CacheManager) (k : CacheKey) (v : CacheVal)
    (_ttl : Nat) : Bool × CacheManager :=
  match cm.client with
  | none => (false, cm)
  | some b =>
    match b.rawSetex k v with
    | .ok (ok, b2) => (ok, ⟨some b2⟩)
    | .error _ => (false, cm)

/-- `CacheManager.delete` (`cache.py` lines 102-122): returns `0` when the
client is missing or the backend errors. -/
def CacheManager.delete (cm : CacheManager) (ks : List CacheKey) :
    Nat × CacheManager :=
  match cm.client with
  | none => (0, cm)
  | some b =>
    match b.rawDelete ks with
    | .ok (n, b2) => (n, ⟨some b2⟩)
    | .error _ => (0, cm)

/-- `CacheManager.delete_pattern` (`cache.py` lines 124-152): returns `0`
when the client is missing or the backend errors. -/
def CacheManager.deletePattern (cm : CacheManager) (p : CacheKey → Bool) :
    Nat × CacheManager :=
  match cm.client with
  | none => (0, cm)
  | some b =>
    match b.rawDeleteMatching p with
    | .ok (n, b2) => (n, ⟨some b2⟩)
    | .error _ => (0, cm)

/-- `CacheManager.invalidate_user_cache` (`cache.py` lines 154-167): deletes
the user's individual `rank` and `score` keys. -/
def CacheManager.invalidateUserCache (cm : CacheManager) (uid : Int) :
    CacheManager :=
  (cm.delete [CacheKey.rank uid, CacheKey.score uid]).2

/-- Does a key match the glob pattern `leaderboard:top:*`? -/
def isTopKey : CacheKey → Bool
  | .top _ => true
  | _ => false

/-- `CacheManager.invalidate_top_cache` (`cache.py` lines 169-176): deletes
every key matching `leaderboard:top:*`. -/
def CacheManager.invalidateTopCache (cm : CacheManager) : CacheManager :=
  (cm.deletePattern isTopKey).2

/-- A cache manager whose Redis client failed to initialize. -/
def noCache : CacheManager := ⟨none⟩

/-- Look up the leaderboard row of a user, first match in creation order
(`SELECT ... WHERE user_id = :user_id`, user_id being the primary key). -/
def findRow (lb : List LeaderboardRow) (uid : Int) : Option LeaderboardRow :=
  lb.find? (fun r => r.user_id == uid)

/-- The SQL window function `RANK() OVER (ORDER BY total_score DESC)` for a
given row: one plus the number of rows with strictly greater total score. -/
def sqlRank (lb : List LeaderboardRow) (r : LeaderboardRow) : Nat :=
  1 + (lb.filter (fun q => decide (r.total_score < q.total_score))).length

/-- The rank query run at the end of `submit_score` (`leaderboard.py` lines
200-210). -/
def rankQuery (lb : List LeaderboardRow) (uid : Int) : Option Nat :=
  (findRow lb uid).map (fun r => sqlRank lb r)

/-- The atomic upsert of `submit_score` (`leaderboard.py` lines 157-176):
`INSERT ... ON CONFLICT (user_id) DO UPDATE SET total_score += :score,
session_count += 1 RETURNING total_score, session_count`.  Returns the table
after the statement together with the `RETURNING` values. -/
def upsertRow (lb : List LeaderboardRow) (uid : Int) (uname : String)
    (delta : Int) : List LeaderboardRow × Int × Nat :=
  match lb with
  | [] => ([⟨uid, uname, delta, 1⟩], delta, 1)
  | r :: rest =>
    if r.user_id == uid then
      (⟨r.user_id, r.username, r.total_score + delta, r.session_count + 1⟩ :: rest,
       r.total_score + delta, r.session_count + 1)
    else
      let res := upsertRow rest uid uname delta
      (r :: res.1, res.2)

/-- Outcome of one `submit_score` call: the database and cache states after
the call together with the HTTP response. -/
structure SubmitOutcome where
  db : Db
  cache : CacheManager
  response : Except HttpErr ScoreResponse

/-- The `submit_score` handler (`leaderboard.py` lines 108-238), on an
already schema-validated submission.  `rankQueryFails` injects a database
failure into the post-commit rank query (step 5); the handler's
`db.rollback()` in that branch has no effect on the committed transaction, so
the committed state is kept while the handler raises a 500. -/
def submit_score (db : Db) (cm : CacheManager) (sub : ScoreSubmission)
    (rankQueryFails : Bool) : SubmitOutcome :=
  match db.users.find? (fun u => u.id == sub.user_id) with
  | none => ⟨db, cm, .error .notFound⟩
  | some user =>
    let sessions2 := db.sessions ++ [⟨sub.user_id, sub.score, sub.game_mode.getD "solo"⟩]
    let res := upsertRow db.leaderboard sub.user_id user.username sub.score
    let db2 : Db := ⟨db.users, sessions2, res.1⟩
    let cm2 := (cm.invalidateUserCache sub.user_id).invalidateTopCache
    if rankQueryFails then
      ⟨db2, cm2, .error .internalErr⟩
    else
      ⟨db2, cm2, .ok ⟨true, sub.user_id, res.2.1, rankQuery res.1 sub.user_id⟩⟩

/-- Stable descending insertion: place `r` after every already placed row
whose total score is at least `r`'s. -/
def insertDesc (r : LeaderboardRow) : List LeaderboardRow → List LeaderboardRow
  | [] => [r]
  | q :: rest =>
    if r.total_score ≤ q.total_score then q :: insertDesc r rest
    else r :: q :: rest

/-- One admissible execution of `ORDER BY total_score DESC` over the
leaderboard table, used to keep the embedding executable: an insertion sort
that happens to resolve ties by creation order.  The source query carries no
secondary sort key, so it does not guarantee this (or any) tie order; the
properties the query does guarantee are captured by `IsOrderByDesc`, and
theorems about the listing quantify over every ordering satisfying it. -/
def sortByScoreDesc (lb : List LeaderboardRow) : List LeaderboardRow :=
  lb.foldl (fun acc r => insertDesc r acc) []

/-- The contract of `ORDER BY total_score DESC` (`leaderboard.py` lines
351-354): the returned row list is a permutation of the table, sorted by
total score descending.  Nothing more is guaranteed: the relative order of
rows with tied scores is unspecified and may differ between executions. -/
def IsOrderByDesc (lb out : List LeaderboardRow) : Prop :=
  List.Perm out lb ∧
    List.Pairwise (fun a b => b.total_score ≤ a.total_score) out

/-- The entry list built by `get_top_players` (`leaderboard.py` lines
360-369): `enumerate` over the query result, with `rank = idx + 1`. -/
def buildEntries (startRank : Nat) : List LeaderboardRow → List LeaderboardEntry
  | [] => []
  | r :: rest =>
    ⟨startRank, r.user_id, r.username, r.total_score, r.session_count⟩ ::
      buildEntries (startRank + 1) rest

/-- Forgets the rank annotation of an entry. -/
def entryRow (e : LeaderboardEntry) : LeaderboardRow :=
  ⟨e.user_id, e.username, e.total_score, e.session_count⟩

/-- The database path of `get_top_players` (`leaderboard.py` lines 351-375)
as a function of the ordering the database returned for
`ORDER BY total_score DESC`: the first `limit` rows of that ordering with
positional 1-based ranks, and the total player count. -/
def topQueryWith (db : Db) (sorted : List LeaderboardRow) (lim : Int) :
    TopPlayersResponse :=
  ⟨buildEntries 1 (sorted.take lim.toNat), db.leaderboard.length⟩

/-- The database path of `get_top_players` under the embedding's admissible
execution of the `ORDER BY` (see `sortByScoreDesc`). -/
def topQuery (db : Db) (lim : Int) : TopPlayersResponse :=
  topQueryWith db (sortByScoreDesc db.leaderboard) lim

/-- FastAPI validation of the `limit` query parameter
(`Query(default=10, ge=1, le=100)`, `leaderboard.py` lines 311-317). -/
def validateLimit : Option Int → Except HttpErr Int
  | none => .ok 10
  | some v => if 1 ≤ v ∧ v ≤ 100 then .ok v else .error .validationErr

/-- The `get_top_players` endpoint (`leaderboard.py` lines 310-393):
validate `limit`, try the cache, fall back to the database query and cache
its result (a failed cache write is swallowed). -/
def get_top_players (db : Db) (cm : CacheManager) (rawLimit : Option Int) :
    Except HttpErr TopPlayersResponse × CacheManager :=
  match validateLimit rawLimit with
  | .error e => (.error e, cm)
  | .ok lim =>
    match cm.get (.top lim) with
    | some (.topV resp) => (.ok resp, cm)
    | _ =>
      let resp := topQuery db lim
      ((.ok resp), (cm.set (.top lim) (.topV resp) 30).2)

/-- Python `round` at a whole number: round half to even. -/
def roundHalfEven (q : ℚ) : ℤ :=
  if q - ⌊q⌋ < 1 / 2 then ⌊q⌋
  else if 1 / 2 < q - ⌊q⌋ then ⌊q⌋ + 1
  else if 2 ∣ ⌊q⌋ then ⌊q⌋ else ⌊q⌋ + 1

/-- Python `round(x, 2)`: round half to even at two decimal places. -/
def pyRound2 (q : ℚ) : ℚ := (roundHalfEven (q * 100) : ℚ) / 100

/-- The database path of `get_player_rank` (`leaderboard.py` lines 499-544):
`RANK()` window query, percentile `(total_count - rank) / total_count * 100`
when `total_count > 0` and `0` otherwise, rounded to two decimals. -/
def computeRank (db : Db) (uid : Int) : Except HttpErr PlayerRankResponse :=
  match findRow db.leaderboard uid with
  | none => .error .notFound
  | some r =>
    let total_count := db.leaderboard.length
    let rank := sqlRank db.leaderboard r
    let percentile : ℚ :=
      if 0 < total_count then
        pyRound2 (((total_count : ℚ) - (rank : ℚ)) / (total_count : ℚ) * 100)
      else 0
    .ok ⟨r.user_id, r.username, rank, r.total_score, r.session_count, percentile⟩

/-- The `get_player_rank` endpoint (`leaderboard.py` lines 456-570): reject a
non-positive user id, try the cache, fall back to the window query and cache
its result (a failed cache write is swallowed). -/
def get_player_rank (db : Db) (cm : CacheManager) (uid : Int) :
    Except HttpErr PlayerRankResponse × CacheManager :=
  if uid ≤ 0 then (.error .validationErr, cm)
  else
    match cm.get (.rank uid) with
    | some (.rankV resp) => (.ok resp, cm)
    | _ =>
      match computeRank db uid with
      | .error e => (.error e, cm)
      | .ok resp => ((.ok resp), (cm.set (.rank uid) (.rankV resp) 60).2)

/-- Per-client request-timestamp map of `RateLimitMiddleware`
(`middleware.py`): `defaultdict(list)` from client IP to timestamps. -/
abbrev RateMap := List (String × List ℚ)

/-- Timestamps recorded for a client (`defaultdict` read: missing keys give
the empty list). -/
def getTimes (m : RateMap) (ip : String) : List ℚ :=
  ((m.find? (fun e => e.1 == ip)).map (fun e => e.2)).getD []

/-- Store a client's timestamp list. -/
def setTimes (m : RateMap) (ip : String) (l : List ℚ) : RateMap :=
  (ip, l) :: m.filter (fun e => !(e.1 == ip))

/-- `RateLimitMiddleware._check_rate_limit` (`middleware.py` lines 82-96):
prune the client's timestamps to those strictly newer than `now - 60`, store
the pruned list, then accept and record `now` only if the pruned length is
below the limit. -/
def check_rate_limit (limit : Nat) (m : RateMap) (ip : String) (now : ℚ) :
    Bool × RateMap :=
  let pruned := (getTimes m ip).filter (fun ts => decide (now - 60 < ts))
  if pruned.length < limit then (true, setTimes m ip (pruned ++ [now]))
  else (false, setTimes m ip pruned)

/-- Run a sequence of requests of one client through the rate limiter,
collecting the accept/reject decisions. -/
def runRequests (limit : Nat) (ip : String) : RateMap → List ℚ → List Bool
  | _, [] => []
  | m, t :: ts =>
    let res := check_rate_limit limit m ip t
    res.1 :: runRequests limit ip res.2 ts

/-! ### Helper lemmas on filters -/

/-- A pointwise-weaker filter keeps at most as many elements. -/
theorem length_filter_mono {α : Type} (l : List α) (P Q : α → Bool)
    (h : ∀ x ∈ l, P x = true → Q x = true) :
    (l.filter P).length ≤ (l.filter Q).length := by
  induction l with
  | nil => simp
  | cons a t ih =>
    have ht : ∀ x ∈ t, P x = true → Q x = true := fun x hx => h x (List.mem_cons_of_mem a hx)
    by_cases hPa : P a = true
    · have hQa : Q a = true := h a (List.mem_cons_self a t) hPa
      simpa [List.filter_cons, hPa, hQa] using Nat.succ_le_succ (ih ht)
    · have hPa' : P a = false := by simpa using hPa
      by_cases hQa : Q a = true
      · simp only [List.filter_cons, hPa', hQa]
        exact le_trans (ih ht) (by simp)
      · have hQa' : Q a = false := by simpa using hQa
        simpa [List.filter_cons, hPa', hQa'] using ih ht

/-- A strictly-weaker filter, witnessed by one member kept only by the weaker
predicate, keeps strictly more elements. -/
theorem length_filter_lt {α : Type} (l : List α) (P Q : α → Bool)
    (h : ∀ x ∈ l, P x = true → Q x = true)
    (a : α) (ha : a ∈ l) (hQa : Q a = true) (hPa : P a = false) :
    (l.filter P).length < (l.filter Q).length := by
  induction l with
  | nil => cases ha
  | cons b t ih =>
    have ht : ∀ x ∈ t, P x = true → Q x = true := fun x hx => h x (List.mem_cons_of_mem b hx)
    rcases List.mem_cons.mp ha with rfl | hat
    · have hmono := length_filter_mono t P Q ht
      simp only [List.filter_cons, hPa, hQa]
      simpa using Nat.lt_succ_of_le hmono
    · have hlt := ih ht hat
      by_cases hPb : P b = true
      · have hQb : Q b = true := h b (List.mem_cons_self b t) hPb
        simpa [List.filter_cons, hPb, hQb] using Nat.succ_lt_succ hlt
      · have hPb' : P b = false := by simpa using hPb
        by_cases hQb : Q b = true
        · simp only [List.filter_cons, hPb', hQb]
          exact Nat.lt_of_lt_of_le hlt (by simp)
        · have hQb' : Q b = false := by simpa using hQb
          simpa [List.filter_cons, hPb', hQb'] using hlt

/-- A filter rejecting some member of the list keeps strictly fewer elements
than the list has. -/
theorem length_filter_lt_length {α : Type} (l : List α) (P : α → Bool)
    (a : α) (ha : a ∈ l) (hPa : P a = false) :
    (l.filter P).length < l.length := by
  have := length_filter_lt l P (fun _ => true) (fun x _ _ => rfl) a ha rfl hPa
  simpa using this

/-! ### Helper lemmas on rounding -/

theorem floor_le_roundHalfEven (q : ℚ) : ⌊q⌋ ≤ roundHalfEven q := by
  unfold roundHalfEven
  split
  · exact le_refl _
  · split
    · exact Int.le_add_one (le_refl _)
    · split
      · exact le_refl _
      · exact Int.le_add_one (le_refl _)

theorem roundHalfEven_le_of_le (q : ℚ) (B : ℤ) (h : q ≤ (B : ℚ)) :
    roundHalfEven q ≤ B := by
  have hfloor : ⌊q⌋ ≤ B := by
    have := Int.floor_le_floor h
    simpa using this
  have hplus : ¬ (q - ⌊q⌋ < 1 / 2) → ⌊q⌋ + 1 ≤ B := by
    intro hge
    push_neg at hge
    by_contra hcon
    push_neg at hcon
    have hBle : B ≤ ⌊q⌋ := Int.lt_add_one_iff.mp hcon
    have h1 : (B : ℚ) ≤ (⌊q⌋ : ℚ) := by exact_mod_cast hBle
    have h2 : (⌊q⌋ : ℚ) ≤ q - 1 / 2 := by linarith
    have h3 : q ≤ q - 1 / 2 := le_trans h (le_trans h1 h2)
    linarith
  unfold roundHalfEven
  split
  · exact hfloor
  · next hge =>
    split
    · exact hplus hge
    · split
      · exact hfloor
      · exact hplus hge

theorem le_roundHalfEven_of_le (q : ℚ) (B : ℤ) (h : (B : ℚ) ≤ q) :
    B ≤ roundHalfEven q := by
  have : B ≤ ⌊q⌋ := Int.le_floor.mpr h
  exact le_trans this (floor_le_roundHalfEven q)

theorem pyRound2_nonneg (q : ℚ) (h : 0 ≤ q) : 0 ≤ pyRound2 q := by
  unfold pyRound2
  have h100 : (0 : ℚ) ≤ q * 100 := by positivity
  have := le_roundHalfEven_of_le (q * 100) 0 (by exact_mod_cast h100)
  have hc : (0 : ℚ) ≤ (roundHalfEven (q * 100) : ℚ) := by exact_mod_cast this
  positivity

theorem pyRound2_le_100 (q : ℚ) (h : q ≤ 100) : pyRound2 q ≤ 100 := by
  unfold pyRound2
  have h100 : q * 100 ≤ ((10000 : ℤ) : ℚ) := by push_cast; linarith
  have := roundHalfEven_le_of_le (q * 100) 10000 h100
  have hc : (roundHalfEven (q * 100) : ℚ) ≤ 10000 := by exact_mod_cast this
  linarith

/-! ### Helper lemmas on the upsert -/

theorem findRow_cons (r : LeaderboardRow) (rest : List LeaderboardRow) (uid : Int) :
    findRow (r :: rest) uid =
      if r.user_id == uid then some r else findRow rest uid := by
  by_cases hb : (r.user_id == uid) = true
  · simp [findRow, List.find?_cons_of_pos, hb]
  · have hb' : (r.user_id == uid) = false := by simpa using hb
    simp [findRow, List.find?_cons_of_neg, hb']

/-- When the player has no row, the upsert appends a fresh row holding the
delta and a session count of one, and returns those values. -/
theorem upsertRow_of_none (lb : List LeaderboardRow) (uid : Int) (un : String)
    (d : Int) (h : findRow lb uid = none) :
    upsertRow lb uid un d = (lb ++ [⟨uid, un, d, 1⟩], d, 1) := by
  induction lb with
  | nil => rfl
  | cons r rest ih =>
    rw [findRow_cons] at h
    by_cases hb : (r.user_id == uid) = true
    · simp [hb] at h
    · have hb' : (r.user_id == uid) = false := by simpa using hb
      rw [if_neg (by simp [hb'])] at h
      simp [upsertRow, hb', ih h]

/-- When the player already has a row, the upsert adds the delta to its total
score, increments its session count, and returns the updated values. -/
theorem upsertRow_of_some (lb : List LeaderboardRow) (uid : Int) (un : String)
    (d : Int) (r0 : LeaderboardRow) (h : findRow lb uid = some r0) :
    findRow (upsertRow lb uid un d).1 uid =
      some ⟨r0.user_id, r0.username, r0.total_score + d, r0.session_count + 1⟩
    ∧ (upsertRow lb uid un d).2 = (r0.total_score + d, r0.session_count + 1) := by
  induction lb with
  | nil => simp [findRow] at h
  | cons r rest ih =>
    rw [findRow_cons] at h
    by_cases hb : (r.user_id == uid) = true
    · rw [if_pos hb] at h
      have hr : r = r0 := by injection h
      subst hr
      constructor
      · simp only [upsertRow, hb, if_pos]
        rw [findRow_cons]
        simp [hb]
      · simp [upsertRow, hb]
    · have hb' : (r.user_id == uid) = false := by simpa using hb
      rw [if_neg (by simp [hb'])] at h
      have hrec := ih h
      have hcons : upsertRow (r :: rest) uid un d =
          (r :: (upsertRow rest uid un d).1, (upsertRow rest uid un d).2) := by
        simp [upsertRow, hb']
      constructor
      · rw [hcons]
        dsimp only
        rw [findRow_cons, hb']
        simpa using hrec.1
      · rw [hcons]
        exact hrec.2

/-- A row freshly appended behind rows that never match is found. -/
theorem findRow_append_single (lb : List LeaderboardRow) (uid : Int)
    (r : LeaderboardRow) (h : findRow lb uid = none) (hr : (r.user_id == uid) = true) :
    findRow (lb ++ [r]) uid = some r := by
  induction lb with
  | nil => simp [findRow, List.find?_cons_of_pos, hr]
  | cons q rest ih =>
    rw [findRow_cons] at h
    by_cases hb : (q.user_id == uid) = true
    · simp [hb] at h
    · have hb' : (q.user_id == uid) = false := by simpa using hb
      rw [if_neg (by simp [hb'])] at h
      rw [List.cons_append, findRow_cons, hb']
      simpa using ih h

/-- Unfolding of `submit_score` when the user exists: the session is
appended, the upsert result is committed, both invalidations run, and the
response depends only on whether the post-commit rank query fails. -/
theorem submit_score_of_user (db : Db) (cm : CacheManager)
    (sub : ScoreSubmission) (rf : Bool) (user : UserRow)
    (h : db.users.find? (fun u => u.id == sub.user_id) = some user) :
    submit_score db cm sub rf =
      ⟨⟨db.users,
        db.sessions ++ [⟨sub.user_id, sub.score, sub.game_mode.getD "solo"⟩],
        (upsertRow db.leaderboard sub.user_id user.username sub.score).1⟩,
       (cm.invalidateUserCache sub.user_id).invalidateTopCache,
       if rf then .error .internalErr
       else .ok ⟨true, sub.user_id,
             (upsertRow db.leaderboard sub.user_id user.username sub.score).2.1,
             rankQuery (upsertRow db.leaderboard sub.user_id user.username sub.score).1
               sub.user_id⟩⟩ := by
  cases rf <;> simp [submit_score, h]

/-! ### C1: aggregate update semantics of submit_score -/

/-- A database holding only the user `alice`, with no sessions and no
leaderboard rows. -/
def aliceOnly : Db := ⟨[⟨1, "alice"⟩], [], []⟩

/-- C1: for every score submission accepted by `submit_score`, a player with
no leaderboard row gets a fresh row with `total_score = delta` and
`session_count = 1`, and a player with an existing row has its total
increased by exactly `delta` and its session count by exactly `1`; in
particular submitting `1000` and then `2000` ends with total `3000` and
session count `2`. -/
theorem submit_score_aggregate_update (db : Db) (cm : CacheManager)
    (sub : ScoreSubmission) (rf : Bool) (user : UserRow)
    (huser : db.users.find? (fun u => u.id == sub.user_id) = some user) :
    (findRow db.leaderboard sub.user_id = none →
      findRow (submit_score db cm sub rf).db.leaderboard sub.user_id =
        some ⟨sub.user_id, user.username, sub.score, 1⟩)
    ∧ (∀ r0, findRow db.leaderboard sub.user_id = some r0 →
      findRow (submit_score db cm sub rf).db.leaderboard sub.user_id =
        some ⟨r0.user_id, r0.username, r0.total_score + sub.score,
              r0.session_count + 1⟩)
    ∧ findRow (submit_score
        (submit_score aliceOnly noCache ⟨1, 1000, none⟩ false).db
        (submit_score aliceOnly noCache ⟨1, 1000, none⟩ false).cache
        ⟨1, 2000, none⟩ false).db.leaderboard 1 =
        some ⟨1, "alice", 3000, 2⟩ := by
  refine ⟨?_, ?_, by decide⟩
  · intro hnone
    rw [submit_score_of_user db cm sub rf user huser]
    dsimp only
    rw [upsertRow_of_none db.leaderboard sub.user_id user.username sub.score hnone]
    exact findRow_append_single db.leaderboard sub.user_id _ hnone (by simp)
  · intro r0 hsome
    rw [submit_score_of_user db cm sub rf user huser]
    dsimp only
    exact (upsertRow_of_some db.leaderboard sub.user_id user.username sub.score
      r0 hsome).1

/-- Witness for C1 at concrete inputs: an existing row `(500, 3 sessions)`
receiving a delta of `250` becomes `(750, 4 sessions)`. -/
theorem submit_score_aggregate_update_witness :
    findRow (submit_score ⟨[⟨1, "alice"⟩], [], [⟨1, "alice", 500, 3⟩]⟩
        noCache ⟨1, 250, none⟩ false).db.leaderboard 1 =
      some ⟨1, "alice", 750, 4⟩ := by
  have h := (submit_score_aggregate_update
      ⟨[⟨1, "alice"⟩], [], [⟨1, "alice", 500, 3⟩]⟩ noCache ⟨1, 250, none⟩ false
      ⟨1, "alice"⟩ (by decide)).2.1 ⟨1, "alice", 500, 3⟩ (by decide)
  norm_num at h
  exact h

/-! ### Rank lemmas -/

/-- Equal total scores yield equal `RANK()` values. -/
theorem sqlRank_eq_of_score_eq (lb : List LeaderboardRow)
    (p q : LeaderboardRow) (h : p.total_score = q.total_score) :
    sqlRank lb p = sqlRank lb q := by
  unfold sqlRank
  rw [h]

/-- A strictly greater total score yields a strictly smaller `RANK()`. -/
theorem sqlRank_lt_of_score_gt (lb : List LeaderboardRow)
    (p q : LeaderboardRow) (hp : p ∈ lb) (h : q.total_score < p.total_score) :
    sqlRank lb p < sqlRank lb q := by
  unfold sqlRank
  have hmono : ∀ x ∈ lb, decide (p.total_score < x.total_score) = true →
      decide (q.total_score < x.total_score) = true := by
    intro x _ hx
    simp only [decide_eq_true_eq] at hx ⊢
    exact lt_trans h hx
  have := length_filter_lt lb
    (fun r => decide (p.total_score < r.total_score))
    (fun r => decide (q.total_score < r.total_score))
    hmono p hp (by simp [h]) (by simp)
  omega

/-- `RANK()` of a member row never exceeds the row count. -/
theorem sqlRank_le_length (lb : List LeaderboardRow) (r : LeaderboardRow)
    (hr : r ∈ lb) : sqlRank lb r ≤ lb.length := by
  unfold sqlRank
  have := length_filter_lt_length lb
    (fun q => decide (r.total_score < q.total_score)) r hr (by simp)
  omega

/-- Inversion of a successful `computeRank`: the response is built from the
player's row, with the `RANK()` value and the guarded percentile formula. -/
theorem computeRank_ok_inv (db : Db) (uid : Int) (resp : PlayerRankResponse)
    (h : computeRank db uid = .ok resp) :
    ∃ r, findRow db.leaderboard uid = some r ∧ r ∈ db.leaderboard ∧
      resp.total_score = r.total_score ∧
      resp.rank = sqlRank db.leaderboard r ∧
      resp.percentile =
        (if 0 < db.leaderboard.length then
          pyRound2 (((db.leaderboard.length : ℚ) - (resp.rank : ℚ)) /
            (db.leaderboard.length : ℚ) * 100)
        else 0) := by
  unfold computeRank at h
  cases hf : findRow db.leaderboard uid with
  | none => rw [hf] at h; cases h
  | some r =>
    rw [hf] at h
    have hresp : resp = ⟨r.user_id, r.username, sqlRank db.leaderboard r,
        r.total_score, r.session_count,
        if 0 < db.leaderboard.length then
          pyRound2 (((db.leaderboard.length : ℚ) -
            ((sqlRank db.leaderboard r : Nat) : ℚ)) /
            (db.leaderboard.length : ℚ) * 100)
        else 0⟩ := by
      cases h
      rfl
    refine ⟨r, rfl, List.mem_of_find?_eq_some hf, ?_, ?_, ?_⟩
    · rw [hresp]
    · rw [hresp]
    · rw [hresp]

/-- On a cache miss, `get_player_rank` for a positive user id returns the
result of the database rank query. -/
theorem get_player_rank_miss (db : Db) (cm : CacheManager) (uid : Int)
    (hm : cm.get (.rank uid) = none) (hpos : 0 < uid) :
    (get_player_rank db cm uid).1 = computeRank db uid := by
  cases hc : computeRank db uid <;>
    simp [get_player_rank, hm, hc, not_le.mpr hpos]

/-- A successful `get_player_rank` on a cache miss comes from the database
rank query. -/
theorem get_player_rank_ok_of_miss (db : Db) (cm : CacheManager) (uid : Int)
    (resp : PlayerRankResponse) (hm : cm.get (.rank uid) = none)
    (h : (get_player_rank db cm uid).1 = .ok resp) :
    computeRank db uid = .ok resp := by
  by_cases hpos : 0 < uid
  · rw [← get_player_rank_miss db cm uid hm hpos]
    exact h
  · exfalso
    have : (get_player_rank db cm uid).1 = .error .validationErr := by
      simp [get_player_rank, not_lt.mp hpos]
    rw [this] at h
    cases h

/-- Evaluation helper: a successful `computeRank` from its ingredients. -/
theorem computeRank_eq (db : Db) (uid : Int) (r : LeaderboardRow)
    (hf : findRow db.leaderboard uid = some r) (n k : Nat)
    (hrk : sqlRank db.leaderboard r = k) (hlen : db.leaderboard.length = n)
    (hn : 0 < n) (p : ℚ)
    (hp : pyRound2 (((n : ℚ) - (k : ℚ)) / (n : ℚ) * 100) = p) :
    computeRank db uid =
      .ok ⟨r.user_id, r.username, k, r.total_score, r.session_count, p⟩ := by
  unfold computeRank
  rw [hf]
  simp only [hrk, hlen, if_pos hn, hp]

/-- With an uninitialized cache client every lookup misses, so
`get_player_rank` always takes the database path. -/
theorem get_player_rank_noCache (db : Db) (uid : Int) (hpos : 0 < uid) :
    (get_player_rank db noCache uid).1 = computeRank db uid :=
  get_player_rank_miss db noCache uid rfl hpos

/-! ### C2: dense/competition rank semantics of get_player_rank -/

/-- A two-player leaderboard used to instantiate the rank theorems. -/
def rankDemoDb : Db := ⟨[], [], [⟨1, "a", 300, 1⟩, ⟨2, "b", 100, 1⟩]⟩

/-- Concrete evaluation: player 1 of `rankDemoDb` has rank 1 and
percentile 50. -/
theorem rankDemoDb_player1 : (get_player_rank rankDemoDb noCache 1).1 =
    .ok ⟨1, "a", 1, 300, 1, 50⟩ := by
  rw [get_player_rank_noCache rankDemoDb 1 (by norm_num)]
  exact computeRank_eq rankDemoDb 1 ⟨1, "a", 300, 1⟩ rfl 2 1 rfl rfl
    (by norm_num) 50 (by norm_num [pyRound2, roundHalfEven])

/-- Concrete evaluation: player 2 of `rankDemoDb` has rank 2 and
percentile 0. -/
theorem rankDemoDb_player2 : (get_player_rank rankDemoDb noCache 2).1 =
    .ok ⟨2, "b", 2, 100, 1, 0⟩ := by
  rw [get_player_rank_noCache rankDemoDb 2 (by norm_num)]
  exact computeRank_eq rankDemoDb 2 ⟨2, "b", 100, 1⟩ rfl 2 2 rfl rfl
    (by norm_num) 0 (by norm_num [pyRound2, roundHalfEven])

/-- C2: the rank returned by `get_player_rank` is one plus the number of
players with a strictly greater total score; hence tied scores share a rank,
and a strictly greater score gives a strictly smaller rank. -/
theorem get_player_rank_rank_semantics (db : Db) (cm : CacheManager)
    (u v : Int) (ru rv : PlayerRankResponse)
    (hmu : cm.get (.rank u) = none) (hmv : cm.get (.rank v) = none)
    (hru : (get_player_rank db cm u).1 = .ok ru)
    (hrv : (get_player_rank db cm v).1 = .ok rv) :
    ru.rank = 1 + (db.leaderboard.filter
      (fun r => decide (ru.total_score < r.total_score))).length
    ∧ (ru.total_score = rv.total_score → ru.rank = rv.rank)
    ∧ (rv.total_score < ru.total_score → ru.rank < rv.rank) := by
  obtain ⟨p, hfp, hpm, hpt, hpr, -⟩ :=
    computeRank_ok_inv db u ru (get_player_rank_ok_of_miss db cm u ru hmu hru)
  obtain ⟨q, hfq, hqm, hqt, hqr, -⟩ :=
    computeRank_ok_inv db v rv (get_player_rank_ok_of_miss db cm v rv hmv hrv)
  refine ⟨?_, ?_, ?_⟩
  · rw [hpr, hpt]
    rfl
  · intro hts
    rw [hpr, hqr]
    exact sqlRank_eq_of_score_eq db.leaderboard p q (by rw [← hpt, ← hqt, hts])
  · intro hts
    rw [hpr, hqr]
    exact sqlRank_lt_of_score_gt db.leaderboard p q hpm (by rw [← hpt, ← hqt]; exact hts)

/-- Witness for C2 on the two-player leaderboard: player 1 (score 300) has
rank 1, player 2 (score 100) has rank 2. -/
theorem get_player_rank_rank_semantics_witness :
    (⟨1, "a", 1, 300, 1, 50⟩ : PlayerRankResponse).rank =
      1 + (rankDemoDb.leaderboard.filter (fun r =>
        decide ((⟨1, "a", 1, 300, 1, 50⟩ : PlayerRankResponse).total_score
          < r.total_score))).length
    ∧ ((⟨1, "a", 1, 300, 1, 50⟩ : PlayerRankResponse).total_score =
        (⟨2, "b", 2, 100, 1, 0⟩ : PlayerRankResponse).total_score →
        (⟨1, "a", 1, 300, 1, 50⟩ : PlayerRankResponse).rank =
        (⟨2, "b", 2, 100, 1, 0⟩ : PlayerRankResponse).rank)
    ∧ ((⟨2, "b", 2, 100, 1, 0⟩ : PlayerRankResponse).total_score <
        (⟨1, "a", 1, 300, 1, 50⟩ : PlayerRankResponse).total_score →
        (⟨1, "a", 1, 300, 1, 50⟩ : PlayerRankResponse).rank <
        (⟨2, "b", 2, 100, 1, 0⟩ : PlayerRankResponse).rank) :=
  get_player_rank_rank_semantics rankDemoDb noCache 1 2
    ⟨1, "a", 1, 300, 1, 50⟩ ⟨2, "b", 2, 100, 1, 0⟩ rfl rfl
    rankDemoDb_player1 rankDemoDb_player2

/-! ### C5: percentile formula of get_player_rank -/

/-- The three-player scenario of the specification: totals 5000, 3000, 1000. -/
def scenarioDb3 : Db :=
  ⟨[], [], [⟨1, "a", 5000, 1⟩, ⟨2, "b", 3000, 1⟩, ⟨3, "c", 1000, 1⟩]⟩

/-- Concrete evaluation: the bottom player of the three-player scenario has
rank 3 and percentile 0. -/
theorem scenarioDb3_bottom : (get_player_rank scenarioDb3 noCache 3).1 =
    .ok ⟨3, "c", 3, 1000, 1, 0⟩ := by
  rw [get_player_rank_noCache scenarioDb3 3 (by norm_num)]
  exact computeRank_eq scenarioDb3 3 ⟨3, "c", 1000, 1⟩ rfl 3 3 rfl rfl
    (by norm_num) 0 (by norm_num [pyRound2, roundHalfEven])

/-- Concrete evaluation: the top player of the three-player scenario has
rank 1 and percentile 66.67. -/
theorem scenarioDb3_top : (get_player_rank scenarioDb3 noCache 1).1 =
    .ok ⟨1, "a", 1, 5000, 1, 6667 / 100⟩ := by
  rw [get_player_rank_noCache scenarioDb3 1 (by norm_num)]
  exact computeRank_eq scenarioDb3 1 ⟨1, "a", 5000, 1⟩ rfl 3 1 rfl rfl
    (by norm_num) (6667 / 100) (by norm_num [pyRound2, roundHalfEven])

/-- C5: the percentile returned by `get_player_rank` equals
`(totalPlayers - rank) / totalPlayers * 100` rounded to two decimals, always
lies in `[0, 100]` (so the claimed clamping never has to change it), and on
the three-player scenario the rank-3 player gets `0` and the rank-1 player
gets `66.67`. -/
theorem get_player_rank_percentile (db : Db) (cm : CacheManager) (uid : Int)
    (resp : PlayerRankResponse) (hm : cm.get (.rank uid) = none)
    (h : (get_player_rank db cm uid).1 = .ok resp) :
    resp.percentile =
      pyRound2 (((db.leaderboard.length : ℚ) - (resp.rank : ℚ)) /
        (db.leaderboard.length : ℚ) * 100)
    ∧ 0 ≤ resp.percentile ∧ resp.percentile ≤ 100
    ∧ (get_player_rank scenarioDb3 noCache 3).1 =
        .ok ⟨3, "c", 3, 1000, 1, 0⟩
    ∧ (get_player_rank scenarioDb3 noCache 1).1 =
        .ok ⟨1, "a", 1, 5000, 1, 6667 / 100⟩ := by
  obtain ⟨r, hf, hm', ht, hr, hp⟩ :=
    computeRank_ok_inv db uid resp (get_player_rank_ok_of_miss db cm uid resp hm h)
  have hlen : 0 < db.leaderboard.length := List.length_pos.mpr (by
    intro hnil
    rw [hnil] at hm'
    cases hm')
  have hrank1 : 1 ≤ resp.rank := by
    rw [hr]
    unfold sqlRank
    omega
  have hrankN : resp.rank ≤ db.leaderboard.length := by
    rw [hr]
    exact sqlRank_le_length db.leaderboard r hm'
  have hform : resp.percentile =
      pyRound2 (((db.leaderboard.length : ℚ) - (resp.rank : ℚ)) /
        (db.leaderboard.length : ℚ) * 100) := by
    rw [hp, if_pos hlen]
  have hlenQ : (0 : ℚ) < (db.leaderboard.length : ℚ) := by exact_mod_cast hlen
  have hrankQ : (resp.rank : ℚ) ≤ (db.leaderboard.length : ℚ) := by
    exact_mod_cast hrankN
  have hrank0 : (0 : ℚ) ≤ (resp.rank : ℚ) := by positivity
  have hval0 : (0 : ℚ) ≤ ((db.leaderboard.length : ℚ) - (resp.rank : ℚ)) /
      (db.leaderboard.length : ℚ) * 100 := by
    have : (0 : ℚ) ≤ (db.leaderboard.length : ℚ) - (resp.rank : ℚ) := by linarith
    positivity
  have hval100 : ((db.leaderboard.length : ℚ) - (resp.rank : ℚ)) /
      (db.leaderboard.length : ℚ) * 100 ≤ 100 := by
    have hdiv : ((db.leaderboard.length : ℚ) - (resp.rank : ℚ)) /
        (db.leaderboard.length : ℚ) ≤ 1 := by
      rw [div_le_one hlenQ]
      linarith
    linarith
  refine ⟨hform, ?_, ?_, scenarioDb3_bottom, scenarioDb3_top⟩
  · rw [hform]
    exact pyRound2_nonneg _ hval0
  · rw [hform]
    exact pyRound2_le_100 _ hval100

/-- Witness for C5: player 1 of the two-player leaderboard has percentile
`50`, within bounds, and the three-player scenario values hold. -/
theorem get_player_rank_percentile_witness :
    (⟨1, "a", 1, 300, 1, 50⟩ : PlayerRankResponse).percentile =
      pyRound2 (((rankDemoDb.leaderboard.length : ℚ) -
        ((⟨1, "a", 1, 300, 1, 50⟩ : PlayerRankResponse).rank : ℚ)) /
        (rankDemoDb.leaderboard.length : ℚ) * 100)
    ∧ 0 ≤ (⟨1, "a", 1, 300, 1, 50⟩ : PlayerRankResponse).percentile
    ∧ (⟨1, "a", 1, 300, 1, 50⟩ : PlayerRankResponse).percentile ≤ 100
    ∧ (get_player_rank scenarioDb3 noCache 3).1 =
        .ok ⟨3, "c", 3, 1000, 1, 0⟩
    ∧ (get_player_rank scenarioDb3 noCache 1).1 =
        .ok ⟨1, "a", 1, 5000, 1, 6667 / 100⟩ :=
  get_player_rank_percentile rankDemoDb noCache 1
    ⟨1, "a", 1, 300, 1, 50⟩ rfl rankDemoDb_player1

/-! ### C6: sliding-window rate limiter -/

theorem getTimes_setTimes (m : RateMap) (ip : String) (l : List ℚ) :
    getTimes (setTimes m ip l) ip = l := by
  unfold getTimes setTimes
  rw [List.find?_cons_of_pos _ (by simp)]
  rfl

/-- C6: the rate limiter prunes the client's timestamps to those strictly
newer than `now - 60`, accepts and records `now` exactly when the pruned
sequence is shorter than the limit, and records nothing new on a rejection;
with limit 3, four requests inside the window see the fourth rejected, and a
fifth after the window has fully elapsed is accepted. -/
theorem check_rate_limit_spec (limit : Nat) (m : RateMap) (ip : String)
    (now : ℚ) :
    ((check_rate_limit limit m ip now).1 = true ↔
      ((getTimes m ip).filter (fun ts => decide (now - 60 < ts))).length < limit)
    ∧ ((check_rate_limit limit m ip now).1 = true →
        getTimes (check_rate_limit limit m ip now).2 ip =
          (getTimes m ip).filter (fun ts => decide (now - 60 < ts)) ++ [now])
    ∧ ((check_rate_limit limit m ip now).1 = false →
        getTimes (check_rate_limit limit m ip now).2 ip =
          (getTimes m ip).filter (fun ts => decide (now - 60 < ts)))
    ∧ runRequests 3 "c" [] [0, 1, 2, 3, 63] =
        [true, true, true, false, true] := by
  refine ⟨?_, ?_, ?_, ?_⟩
  · by_cases h : ((getTimes m ip).filter (fun ts => decide (now - 60 < ts))).length < limit <;>
      simp [check_rate_limit, h]
  · intro h
    by_cases hlen : ((getTimes m ip).filter (fun ts => decide (now - 60 < ts))).length < limit
    · simp [check_rate_limit, hlen, getTimes_setTimes]
    · simp [check_rate_limit, hlen] at h
  · intro h
    by_cases hlen : ((getTimes m ip).filter (fun ts => decide (now - 60 < ts))).length < limit
    · simp [check_rate_limit, hlen] at h
    · simp [check_rate_limit, hlen, getTimes_setTimes]
  · norm_num [runRequests, check_rate_limit, getTimes, setTimes, List.find?,
      List.filter]

/-! ### C7: write-path cache invalidation -/

/-- After the two invalidation calls of the write path, a reachable cache
holds neither the player's individual keys nor any top-N key. -/
theorem invalidate_removes_keys (b : RedisBackend) (uid : Int)
    (hre : b.reachable = true) (k : CacheKey)
    (hk : k = CacheKey.rank uid ∨ k = CacheKey.score uid ∨ isTopKey k = true) :
    (((⟨some b⟩ : CacheManager).invalidateUserCache uid).invalidateTopCache).get
      k = none := by
  unfold CacheManager.invalidateUserCache CacheManager.invalidateTopCache
  simp only [CacheManager.delete, CacheManager.deletePattern, CacheManager.get,
    RedisBackend.rawDelete, RedisBackend.rawDeleteMatching, RedisBackend.rawGet,
    hre, if_pos]
  rw [Option.map_eq_none', List.find?_eq_none]
  intro kv hkv
  have h1 := (List.mem_filter.mp hkv).2
  have h2 := (List.mem_filter.mp (List.mem_filter.mp hkv).1).2
  simp only [Bool.not_eq_eq_eq_not, Bool.not_true] at h1 h2
  intro hbeq
  have hkk : kv.1 = k := by simpa using hbeq
  rcases hk with hk | hk | hk
  · rw [hkk, hk] at h2
    simp [List.contains] at h2
  · rw [hkk, hk] at h2
    simp [List.contains] at h2
  · rw [hkk] at h1
    rw [hk] at h1
    cases h1

/-- A demo rank response used to populate concrete cache states. -/
def demoRankResp : PlayerRankResponse := ⟨1, "a", 1, 300, 1, 50⟩

/-- A reachable cache populated with two top-N entries (limits 10 and 50)
and one individual rank entry. -/
def demoBackend : RedisBackend :=
  ⟨true, [(CacheKey.top 10, CacheVal.topV ⟨[], 0⟩),
          (CacheKey.top 50, CacheVal.topV ⟨[], 0⟩),
          (CacheKey.rank 1, CacheVal.rankV demoRankResp)]⟩

/-- C7: after every successful submission, the write path has invalidated the
submitting player's individual rank cache entry and every cached top-N entry,
whatever limit it was cached under. -/
theorem submit_score_invalidates (db : Db) (b : RedisBackend)
    (sub : ScoreSubmission) (rf : Bool) (user : UserRow)
    (hre : b.reachable = true)
    (huser : db.users.find? (fun u => u.id == sub.user_id) = some user) :
    (submit_score db ⟨some b⟩ sub rf).cache.get (CacheKey.rank sub.user_id) = none
    ∧ ∀ l, (submit_score db ⟨some b⟩ sub rf).cache.get (CacheKey.top l) = none := by
  rw [submit_score_of_user db ⟨some b⟩ sub rf user huser]
  exact ⟨invalidate_removes_keys b sub.user_id hre _ (Or.inl rfl),
    fun l => invalidate_removes_keys b sub.user_id hre _ (Or.inr (Or.inr rfl))⟩

/-- Witness for C7: submitting for player 1 on the populated demo cache
leaves no rank entry for player 1 and no top-10 or top-50 entry. -/
theorem submit_score_invalidates_witness :
    (submit_score aliceOnly ⟨some demoBackend⟩ ⟨1, 5, none⟩ false).cache.get
      (CacheKey.rank 1) = none
    ∧ (submit_score aliceOnly ⟨some demoBackend⟩ ⟨1, 5, none⟩ false).cache.get
      (CacheKey.top 10) = none
    ∧ (submit_score aliceOnly ⟨some demoBackend⟩ ⟨1, 5, none⟩ false).cache.get
      (CacheKey.top 50) = none :=
  ⟨(submit_score_invalidates aliceOnly demoBackend ⟨1, 5, none⟩ false
      ⟨1, "alice"⟩ rfl rfl).1,
   (submit_score_invalidates aliceOnly demoBackend ⟨1, 5, none⟩ false
      ⟨1, "alice"⟩ rfl rfl).2 10,
   (submit_score_invalidates aliceOnly demoBackend ⟨1, 5, none⟩ false
      ⟨1, "alice"⟩ rfl rfl).2 50⟩

/-! ### C8: graceful cache degradation -/

/-- The cache backend is unusable: either initialization failed or the
backend is unreachable. -/
def CacheManager.unavailable (cm : CacheManager) : Prop :=
  cm.client = none ∨ ∃ b, cm.client = some b ∧ b.reachable = false

/-- C8: with an unusable cache backend every cache operation degrades to
cache-miss behavior — `get` misses, `set` reports failure, `delete` and
pattern deletion delete nothing — the state is left unchanged, and the read
and write paths still produce their database-computed results instead of
failing. -/
theorem cache_unavailable_degrades (cm : CacheManager)
    (h : cm.unavailable) :
    (∀ k, cm.get k = none)
    ∧ (∀ k v ttl, cm.set k v ttl = (false, cm))
    ∧ (∀ ks, cm.delete ks = (0, cm))
    ∧ (∀ p, cm.deletePattern p = (0, cm))
    ∧ (∀ uid, cm.invalidateUserCache uid = cm)
    ∧ cm.invalidateTopCache = cm
    ∧ (∀ db rl, (get_top_players db cm rl).1 = (validateLimit rl).map (topQuery db))
    ∧ (∀ db uid, 0 < uid → (get_player_rank db cm uid).1 = computeRank db uid)
    ∧ (∀ db sub rf, (submit_score db cm sub rf).response =
        (submit_score db noCache sub rf).response) := by
  have hget : ∀ k, cm.get k = none := by
    intro k
    rcases h with hnone | ⟨b, hsome, hbad⟩
    · simp [CacheManager.get, hnone]
    · simp [CacheManager.get, hsome, RedisBackend.rawGet, hbad]
  have hset : ∀ k v ttl, cm.set k v ttl = (false, cm) := by
    intro k v ttl
    rcases h with hnone | ⟨b, hsome, hbad⟩
    · simp [CacheManager.set, hnone]
    · simp [CacheManager.set, hsome, RedisBackend.rawSetex, hbad]
  have hdel : ∀ ks, cm.delete ks = (0, cm) := by
    intro ks
    rcases h with hnone | ⟨b, hsome, hbad⟩
    · simp [CacheManager.delete, hnone]
    · simp [CacheManager.delete, hsome, RedisBackend.rawDelete, hbad]
  have hdelp : ∀ p, cm.deletePattern p = (0, cm) := by
    intro p
    rcases h with hnone | ⟨b, hsome, hbad⟩
    · simp [CacheManager.deletePattern, hnone]
    · simp [CacheManager.deletePattern, hsome, RedisBackend.rawDeleteMatching, hbad]
  refine ⟨hget, hset, hdel, hdelp, ?_, ?_, ?_, ?_, ?_⟩
  · intro uid
    simp [CacheManager.invalidateUserCache, hdel]
  · simp [CacheManager.invalidateTopCache, hdelp]
  · intro db rl
    cases hv : validateLimit rl with
    | error e => simp [get_top_players, hv, Except.map]
    | ok lim => simp [get_top_players, hv, hget, Except.map]
  · intro db uid hpos
    exact get_player_rank_miss db cm uid (hget _) hpos
  · intro db sub rf
    cases hu : db.users.find? (fun u => u.id == sub.user_id) with
    | none => simp [submit_score, hu]
    | some user =>
      cases rf <;> simp [submit_score, hu]

/-- An unreachable cache backend still holding an entry. -/
def unreachableCache : CacheManager :=
  ⟨some ⟨false, [(CacheKey.top 10, CacheVal.topV ⟨[], 0⟩)]⟩⟩

/-- Witness for C8 on a concrete unreachable backend: a get misses, a set
fails without changing anything, a delete deletes nothing, and
`get_top_players` still answers from the database. -/
theorem cache_unavailable_degrades_witness :
    unreachableCache.get (CacheKey.top 10) = none
    ∧ unreachableCache.set (CacheKey.rank 1) (CacheVal.rankV demoRankResp) 60 =
        (false, unreachableCache)
    ∧ unreachableCache.delete [CacheKey.rank 1] = (0, unreachableCache)
    ∧ (get_top_players aliceOnly unreachableCache (some 5)).1 =
        (validateLimit (some 5)).map (topQuery aliceOnly) :=
  ⟨(cache_unavailable_degrades unreachableCache
      (Or.inr ⟨_, rfl, rfl⟩)).1 (CacheKey.top 10),
   (cache_unavailable_degrades unreachableCache
      (Or.inr ⟨_, rfl, rfl⟩)).2.1 (CacheKey.rank 1) (CacheVal.rankV demoRankResp) 60,
   (cache_unavailable_degrades unreachableCache
      (Or.inr ⟨_, rfl, rfl⟩)).2.2.1 [CacheKey.rank 1],
   (cache_unavailable_degrades unreachableCache
      (Or.inr ⟨_, rfl, rfl⟩)).2.2.2.2.2.2.1 aliceOnly (some 5)⟩

/-! ### C3: failure handling after the commit -/

/-- A database with one user who already has a leaderboard row. -/
def dbC3 : Db := ⟨[⟨1, "alice"⟩], [], [⟨1, "alice", 100, 1⟩]⟩

/-- Counterexample to C3 as stated: when the post-commit rank query (pipeline
step 5) fails, the handler answers with a 500 internal error — not a success
response — even though the committed aggregate update (total 150, 2 sessions)
is retained. -/
theorem submit_rank_failure_counterexample :
    (submit_score dbC3 noCache ⟨1, 50, none⟩ true).response =
      .error .internalErr
    ∧ findRow (submit_score dbC3 noCache ⟨1, 50, none⟩ true).db.leaderboard 1 =
      some ⟨1, "alice", 150, 2⟩ := by
  decide

/-- C3 as amended: once steps 1-3 have committed, no later failure undoes the
submission — the updated aggregate and the appended session survive any cache
state and any rank-query outcome.  When only the cache fails the response
still reports success with the updated total; when the rank query fails the
handler instead returns a 500 internal error (the aggregate staying
durable). -/
theorem submit_score_post_commit (db : Db) (cm : CacheManager)
    (sub : ScoreSubmission) (rf : Bool) (user : UserRow)
    (huser : db.users.find? (fun u => u.id == sub.user_id) = some user) :
    (submit_score db cm sub rf).db.leaderboard =
      (upsertRow db.leaderboard sub.user_id user.username sub.score).1
    ∧ (submit_score db cm sub rf).db.sessions =
      db.sessions ++ [⟨sub.user_id, sub.score, sub.game_mode.getD "solo"⟩]
    ∧ (rf = false → (submit_score db cm sub rf).response =
        .ok ⟨true, sub.user_id,
          (upsertRow db.leaderboard sub.user_id user.username sub.score).2.1,
          rankQuery (upsertRow db.leaderboard sub.user_id user.username
            sub.score).1 sub.user_id⟩)
    ∧ (rf = true → (submit_score db cm sub rf).response =
        .error .internalErr) := by
  rw [submit_score_of_user db cm sub rf user huser]
  refine ⟨rfl, rfl, ?_, ?_⟩
  · intro h
    rw [h]
    rfl
  · intro h
    rw [h]
    rfl

/-- Witness for the amended C3: on the one-row database with an unreachable
cache backend, a submission with a healthy rank step keeps the upserted table
and reports success with the updated total. -/
theorem submit_score_post_commit_witness :
    (submit_score dbC3 unreachableCache ⟨1, 50, none⟩ false).db.leaderboard =
      (upsertRow dbC3.leaderboard 1 "alice" 50).1
    ∧ (false = false →
        (submit_score dbC3 unreachableCache ⟨1, 50, none⟩ false).response =
        .ok ⟨true, 1, (upsertRow dbC3.leaderboard 1 "alice" 50).2.1,
          rankQuery (upsertRow dbC3.leaderboard 1 "alice" 50).1 1⟩) :=
  ⟨(submit_score_post_commit dbC3 unreachableCache ⟨1, 50, none⟩ false
      ⟨1, "alice"⟩ rfl).1,
   (submit_score_post_commit dbC3 unreachableCache ⟨1, 50, none⟩ false
      ⟨1, "alice"⟩ rfl).2.2.1⟩

/-! ### C9: zero-delta submissions -/

/-- C9: the schema admits exactly the scores in `[0, 1000000]` for a valid
user, so a zero delta is accepted; submitting it increments the session count
by one and leaves the total unchanged, and for a new player creates the row
`(0, 1 session)`. -/
theorem zero_delta_submission (db : Db) (cm : CacheManager) (rf : Bool)
    (uid : Int) (user : UserRow) (hpos : 0 < uid)
    (huser : db.users.find? (fun u => u.id == uid) = some user) :
    (∀ s : Int, validateSubmission uid s none = true ↔ 0 ≤ s ∧ s ≤ 1000000)
    ∧ (findRow db.leaderboard uid = none →
        findRow (submit_score db cm ⟨uid, 0, none⟩ rf).db.leaderboard uid =
          some ⟨uid, user.username, 0, 1⟩)
    ∧ (∀ r0, findRow db.leaderboard uid = some r0 →
        findRow (submit_score db cm ⟨uid, 0, none⟩ rf).db.leaderboard uid =
          some ⟨r0.user_id, r0.username, r0.total_score,
                r0.session_count + 1⟩) := by
  refine ⟨?_, ?_, ?_⟩
  · intro s
    simp [validateSubmission, hpos]
  · intro hnone
    rw [submit_score_of_user db cm ⟨uid, 0, none⟩ rf user huser]
    dsimp only
    rw [upsertRow_of_none db.leaderboard uid user.username 0 hnone]
    exact findRow_append_single db.leaderboard uid _ hnone (by simp)
  · intro r0 hsome
    rw [submit_score_of_user db cm ⟨uid, 0, none⟩ rf user huser]
    dsimp only
    have h := (upsertRow_of_some db.leaderboard uid user.username 0 r0 hsome).1
    simpa using h

/-- Witness for C9: a zero submission on the one-row database keeps the total
at 100 and bumps the session count to 2; and score 0 passes validation. -/
theorem zero_delta_submission_witness :
    (validateSubmission 1 0 none = true ↔ (0 : Int) ≤ 0 ∧ (0 : Int) ≤ 1000000)
    ∧ findRow (submit_score dbC3 noCache ⟨1, 0, none⟩ false).db.leaderboard 1 =
        some ⟨1, "alice", 100, 2⟩ :=
  ⟨(zero_delta_submission dbC3 noCache false 1 ⟨1, "alice"⟩ (by norm_num)
      rfl).1 0,
   (zero_delta_submission dbC3 noCache false 1 ⟨1, "alice"⟩ (by norm_num)
      rfl).2.2 ⟨1, "alice", 100, 1⟩ rfl⟩

/-! ### C4: ordering of get_top_players -/

theorem insertDesc_perm (r : LeaderboardRow) (l : List LeaderboardRow) :
    List.Perm (insertDesc r l) (r :: l) := by
  induction l with
  | nil => exact List.Perm.refl _
  | cons q rest ih =>
    unfold insertDesc
    by_cases hc : r.total_score ≤ q.total_score
    · rw [if_pos hc]
      exact List.Perm.trans (List.Perm.cons q ih) (List.Perm.swap r q rest)
    · rw [if_neg hc]

theorem insertDesc_sorted (r : LeaderboardRow) (l : List LeaderboardRow)
    (h : List.Pairwise (fun a b => b.total_score ≤ a.total_score) l) :
    List.Pairwise (fun a b => b.total_score ≤ a.total_score) (insertDesc r l) := by
  induction l with
  | nil => simp [insertDesc]
  | cons q rest ih =>
    rcases List.pairwise_cons.mp h with ⟨hq, hrest⟩
    unfold insertDesc
    by_cases hc : r.total_score ≤ q.total_score
    · rw [if_pos hc]
      refine List.pairwise_cons.mpr ⟨?_, ih hrest⟩
      intro x hx
      rcases List.mem_cons.mp ((insertDesc_perm r rest).mem_iff.mp hx) with rfl | hxr
      · exact hc
      · exact hq x hxr
    · rw [if_neg hc]
      push_neg at hc
      refine List.pairwise_cons.mpr ⟨?_, h⟩
      intro x hx
      rcases List.mem_cons.mp hx with rfl | hxr
      · exact le_of_lt hc
      · exact le_trans (hq x hxr) (le_of_lt hc)

theorem foldl_insert_perm (l acc : List LeaderboardRow) :
    List.Perm (l.foldl (fun a r => insertDesc r a) acc) (acc ++ l) := by
  induction l generalizing acc with
  | nil => simp
  | cons r rest ih =>
    refine List.Perm.trans (ih (insertDesc r acc)) ?_
    refine List.Perm.trans ((insertDesc_perm r acc).append_right rest) ?_
    exact List.perm_middle.symm

theorem foldl_insert_sorted (l acc : List LeaderboardRow)
    (h : List.Pairwise (fun a b => b.total_score ≤ a.total_score) acc) :
    List.Pairwise (fun a b => b.total_score ≤ a.total_score)
      (l.foldl (fun a r => insertDesc r a) acc) := by
  induction l generalizing acc with
  | nil => exact h
  | cons r rest ih => exact ih (insertDesc r acc) (insertDesc_sorted r acc h)

/-- The embedding's execution of the `ORDER BY` is sorted descending (one
half of `IsOrderByDesc`). -/
theorem sortByScoreDesc_sorted (lb : List LeaderboardRow) :
    List.Pairwise (fun a b => b.total_score ≤ a.total_score)
      (sortByScoreDesc lb) :=
  foldl_insert_sorted lb [] (by simp)

/-- The embedding's execution of the `ORDER BY` is a permutation of the
table (the other half of `IsOrderByDesc`). -/
theorem sortByScoreDesc_perm (lb : List LeaderboardRow) :
    List.Perm (sortByScoreDesc lb) lb := by
  simpa using foldl_insert_perm lb []

theorem buildEntries_length (l : List LeaderboardRow) (s : Nat) :
    (buildEntries s l).length = l.length := by
  induction l generalizing s with
  | nil => rfl
  | cons r rest ih => simp [buildEntries, ih]

theorem buildEntries_map_row (l : List LeaderboardRow) (s : Nat) :
    (buildEntries s l).map entryRow = l := by
  induction l generalizing s with
  | nil => rfl
  | cons r rest ih => simp [buildEntries, entryRow, ih]

theorem buildEntries_rank (l : List LeaderboardRow) (s : Nat) (i : Nat)
    (hi : i < (buildEntries s l).length) :
    ((buildEntries s l).get ⟨i, hi⟩).rank = s + i := by
  induction l generalizing s i with
  | nil => simp [buildEntries] at hi
  | cons r rest ih =>
    cases i with
    | zero => rfl
    | succ j =>
      have hj : j < (buildEntries (s + 1) rest).length := by
        simpa [buildEntries] using hi
      have h2 := ih (s + 1) j hj
      show ((buildEntries (s + 1) rest).get ⟨j, hj⟩).rank = s + (j + 1)
      rw [h2]
      omega

/-- A leaderboard with two tied rows, exhibiting the positional/dense rank
divergence. -/
def tieDb : Db := ⟨[], [], [⟨1, "a", 500, 1⟩, ⟨2, "b", 500, 1⟩]⟩

/-- Counterexample to C4 as stated: the source query orders only by
`total_score DESC` with no secondary sort key, so its contract
(`IsOrderByDesc`) constrains nothing about tied rows.  On the concrete
two-row tied table, both row orders satisfy the contract, the two admissible
executions produce different responses (the listing is not deterministic),
and the execution listing the later-created row first breaks the claimed
insertion/creation-order tie-break. -/
theorem get_top_players_tie_order_counterexample :
    IsOrderByDesc tieDb.leaderboard [⟨2, "b", 500, 1⟩, ⟨1, "a", 500, 1⟩]
    ∧ IsOrderByDesc tieDb.leaderboard [⟨1, "a", 500, 1⟩, ⟨2, "b", 500, 1⟩]
    ∧ (topQueryWith tieDb [⟨2, "b", 500, 1⟩, ⟨1, "a", 500, 1⟩] 10).top_players ≠
        (topQueryWith tieDb [⟨1, "a", 500, 1⟩, ⟨2, "b", 500, 1⟩] 10).top_players
    ∧ (topQueryWith tieDb [⟨2, "b", 500, 1⟩, ⟨1, "a", 500, 1⟩] 10).top_players.map
        entryRow ≠ tieDb.leaderboard := by
  refine ⟨⟨List.Perm.swap _ _ _, by decide⟩, ⟨List.Perm.refl _, by decide⟩,
    by decide, by decide⟩

/-- C4 as amended: on a cache miss with a valid limit, `get_top_players`
succeeds with the database listing, and for every ordering `sorted` that the
`ORDER BY` contract admits (a score-descending permutation of the table, ties
unspecified) the listing built from it consists of the first `limit` rows of
`sorted`, sorted descending, each annotated with the 1-based positional rank
of its position — a rank that can differ from the dense rank of
`get_player_rank` under ties, as the tied demo rows show.  The embedded
endpoint realizes one admissible execution of the contract. -/
theorem get_top_players_ordering (db : Db) (cm : CacheManager) (lim : Int)
    (sorted : List LeaderboardRow)
    (hord : IsOrderByDesc db.leaderboard sorted)
    (h1 : 1 ≤ lim) (h2 : lim ≤ 100)
    (hmiss : cm.get (CacheKey.top lim) = none) :
    IsOrderByDesc db.leaderboard (sortByScoreDesc db.leaderboard)
    ∧ (get_top_players db cm (some lim)).1 =
        .ok (topQueryWith db (sortByScoreDesc db.leaderboard) lim)
    ∧ (topQueryWith db sorted lim).top_players.map entryRow =
        sorted.take lim.toNat
    ∧ List.Pairwise (fun a b => b.total_score ≤ a.total_score)
        (sorted.take lim.toNat)
    ∧ (∀ i (hi : i < (topQueryWith db sorted lim).top_players.length),
        ((topQueryWith db sorted lim).top_players.get ⟨i, hi⟩).rank = i + 1)
    ∧ (topQueryWith tieDb [⟨1, "a", 500, 1⟩, ⟨2, "b", 500, 1⟩]
        10).top_players.map LeaderboardEntry.rank = [1, 2]
    ∧ (computeRank tieDb 2).map PlayerRankResponse.rank = .ok 1 := by
  refine ⟨⟨sortByScoreDesc_perm _, sortByScoreDesc_sorted _⟩, ?_,
    buildEntries_map_row _ 1, hord.2.sublist (List.take_sublist _ _), ?_,
    by decide, rfl⟩
  · simp [get_top_players, validateLimit, h1, h2, hmiss, topQuery]
  · intro i hi
    have h3 := buildEntries_rank (sorted.take lim.toNat) 1 i hi
    rw [Nat.add_comm] at h3
    exact h3

/-- Witness for the amended C4 on the three-player scenario with limit 2,
under the embedding's admissible execution of the `ORDER BY` contract. -/
theorem get_top_players_ordering_witness :
    IsOrderByDesc scenarioDb3.leaderboard
      (sortByScoreDesc scenarioDb3.leaderboard)
    ∧ (get_top_players scenarioDb3 noCache (some 2)).1 =
        .ok (topQueryWith scenarioDb3 (sortByScoreDesc scenarioDb3.leaderboard) 2)
    ∧ (topQueryWith scenarioDb3 (sortByScoreDesc scenarioDb3.leaderboard)
        2).top_players.map entryRow =
        (sortByScoreDesc scenarioDb3.leaderboard).take (2 : Int).toNat
    ∧ (topQueryWith tieDb [⟨1, "a", 500, 1⟩, ⟨2, "b", 500, 1⟩]
        10).top_players.map LeaderboardEntry.rank = [1, 2] :=
  ⟨(get_top_players_ordering scenarioDb3 noCache 2
      (sortByScoreDesc scenarioDb3.leaderboard)
      ⟨sortByScoreDesc_perm _, sortByScoreDesc_sorted _⟩
      (by norm_num) (by norm_num) rfl).1,
   (get_top_players_ordering scenarioDb3 noCache 2
      (sortByScoreDesc scenarioDb3.leaderboard)
      ⟨sortByScoreDesc_perm _, sortByScoreDesc_sorted _⟩
      (by norm_num) (by norm_num) rfl).2.1,
   (get_top_players_ordering scenarioDb3 noCache 2
      (sortByScoreDesc scenarioDb3.leaderboard)
      ⟨sortByScoreDesc_perm _, sortByScoreDesc_sorted _⟩
      (by norm_num) (by norm_num) rfl).2.2.1,
   (get_top_players_ordering scenarioDb3 noCache 2
      (sortByScoreDesc scenarioDb3.leaderboard)
      ⟨sortByScoreDesc_perm _, sortByScoreDesc_sorted _⟩
      (by norm_num) (by norm_num) rfl).2.2.2.2.2.1⟩

/-! ### C10: limit validation of get_top_players -/

/-- C10: an out-of-range `limit` is rejected with a validation error while
the cache state is untouched (the rejection does not depend on the database
or cache contents, both being universally quantified); an omitted `limit`
defaults to 10; and every successful response holds at most `limit` entries.
The hypothesis `hwf` states that cached top-N entries were produced by the
code itself (each cached listing respects its own limit). -/
theorem get_top_players_limit_validation (db : Db) (cm : CacheManager)
    (rl : Option Int)
    (hwf : ∀ l r, cm.get (CacheKey.top l) = some (CacheVal.topV r) →
      r.top_players.length ≤ l.toNat) :
    (∀ v, rl = some v → v < 1 ∨ 100 < v →
      get_top_players db cm rl = (.error .validationErr, cm))
    ∧ (rl = none → validateLimit rl = .ok 10)
    ∧ (∀ resp cm2 l, validateLimit rl = .ok l →
        get_top_players db cm rl = (.ok resp, cm2) →
        resp.top_players.length ≤ l.toNat) := by
  refine ⟨?_, ?_, ?_⟩
  · intro v hv hbad
    subst hv
    have hcond : ¬ (1 ≤ v ∧ v ≤ 100) := by omega
    simp [get_top_players, validateLimit, hcond]
  · intro h
    subst h
    rfl
  · intro resp cm2 l hval hrun
    unfold get_top_players at hrun
    rw [hval] at hrun
    dsimp only at hrun
    cases hg : cm.get (CacheKey.top l) with
    | none =>
      rw [hg] at hrun
      have hfst := congrArg Prod.fst hrun
      simp only [Prod.fst] at hfst
      have hresp : topQuery db l = resp := by
        injection hfst
      rw [← hresp]
      show (buildEntries 1 ((sortByScoreDesc db.leaderboard).take l.toNat)).length
        ≤ l.toNat
      rw [buildEntries_length]
      exact List.length_take_le _ _
    | some val =>
      cases val with
      | topV r =>
        rw [hg] at hrun
        have hfst := congrArg Prod.fst hrun
        simp only [Prod.fst] at hfst
        have hresp : r = resp := by
          injection hfst
        rw [← hresp]
        exact hwf l r hg
      | rankV r =>
        rw [hg] at hrun
        have hfst := congrArg Prod.fst hrun
        simp only [Prod.fst] at hfst
        have hresp : topQuery db l = resp := by
          injection hfst
        rw [← hresp]
        show (buildEntries 1 ((sortByScoreDesc db.leaderboard).take l.toNat)).length
          ≤ l.toNat
        rw [buildEntries_length]
        exact List.length_take_le _ _

/-- Witness for C10: limit 0 is rejected on an empty cache without touching
it, a missing limit validates to 10, and the successful limit-2 query on the
three-player scenario returns at most 2 entries. -/
theorem get_top_players_limit_validation_witness :
    get_top_players scenarioDb3 noCache (some 0) =
      (.error .validationErr, noCache)
    ∧ validateLimit none = .ok 10
    ∧ (topQuery scenarioDb3 2).top_players.length ≤ (2 : Int).toNat :=
  ⟨(get_top_players_limit_validation scenarioDb3 noCache (some 0)
      (fun _ _ h => nomatch h)).1 0 rfl (Or.inl (by norm_num)),
   (get_top_players_limit_validation scenarioDb3 noCache none
      (fun _ _ h => nomatch h)).2.1 rfl,
   (get_top_players_limit_validation scenarioDb3 noCache (some 2)
      (fun _ _ h => nomatch h)).2.2 (topQuery scenarioDb3 2) noCache 2 rfl rfl⟩

end LeaderForge
